import Mathlib

/-!
Verification of the `tensorflow_datasets` core (dataset_builder.py, tf_utils.py):
a shallow embedding of the dataset-builder lifecycle (versioned data directories,
download_and_prepare, split generators) and of the graph/eager compatibility
utilities, with theorems checking the natural-language specification against it.
-/

/-! ## String and path utilities (modelling `os.path.join`, Python `in` and
Python string comparison, which is lexicographic by code point) -/

/-- Python `os.path.join(a, b)` for relative `b`: joins with a path separator. -/
def pathJoin (a b : String) : String := a ++ "/" ++ b

/-- Whether `needle` occurs as a contiguous infix of `haystack` (Python
`needle in haystack` on strings), as a list-of-characters computation. -/
def listContainsSub (needle : List Char) : List Char → Bool
  | [] => needle.isPrefixOf []
  | c :: rest => needle.isPrefixOf (c :: rest) || listContainsSub needle rest

/-- Python substring test `sub in s`. -/
def strContains (s sub : String) : Bool :=
  listContainsSub sub.toList s.toList

/-- Lexicographic `≤` on character lists by code point, mirroring Python's
string comparison. -/
def listCharLeB : List Char → List Char → Bool
  | [], _ => true
  | _ :: _, [] => false
  | a :: as, b :: bs =>
    decide (a.toNat < b.toNat) ||
      (decide (a.toNat = b.toNat) && listCharLeB as bs)

/-- Python's `s1 <= s2` on strings. -/
def strLeB (a b : String) : Bool := listCharLeB a.toList b.toList

/-- Insert a string into a `strLeB`-sorted list, keeping it sorted. -/
def insertSortedStr (x : String) : List String → List String
  | [] => [x]
  | y :: ys => if strLeB x y then x :: y :: ys else y :: insertSortedStr x ys

/-- Python `sorted` on a list of strings: ascending lexicographic order,
realised as insertion sort. -/
def sortStrings : List String → List String
  | [] => []
  | x :: xs => insertSortedStr x (sortStrings xs)

theorem listCharLeB_refl (as : List Char) : listCharLeB as as = true := by
  induction as with
  | nil => rfl
  | cons a as ih => simp [listCharLeB, ih]

theorem listCharLeB_total (as bs : List Char) :
    listCharLeB as bs = true ∨ listCharLeB bs as = true := by
  induction as generalizing bs with
  | nil => exact Or.inl rfl
  | cons a as ih =>
    cases bs with
    | nil => exact Or.inr rfl
    | cons b bs =>
      simp only [listCharLeB, Bool.or_eq_true, Bool.and_eq_true,
        decide_eq_true_eq]
      rcases Nat.lt_trichotomy a.toNat b.toNat with h | h | h
      · exact Or.inl (Or.inl h)
      · rcases ih bs with h' | h'
        · exact Or.inl (Or.inr ⟨h, h'⟩)
        · exact Or.inr (Or.inr ⟨h.symm, h'⟩)
      · exact Or.inr (Or.inl h)

theorem listCharLeB_trans {as bs cs : List Char}
    (h1 : listCharLeB as bs = true) (h2 : listCharLeB bs cs = true) :
    listCharLeB as cs = true := by
  induction as generalizing bs cs with
  | nil => rfl
  | cons a as ih =>
    cases bs with
    | nil => simp [listCharLeB] at h1
    | cons b bs =>
      cases cs with
      | nil => simp [listCharLeB] at h2
      | cons c cs =>
        simp only [listCharLeB, Bool.or_eq_true, Bool.and_eq_true,
          decide_eq_true_eq] at h1 h2 ⊢
        rcases h1 with h1 | ⟨hab, h1⟩
        · rcases h2 with h2 | ⟨hbc, h2⟩
          · exact Or.inl (by omega)
          · exact Or.inl (by omega)
        · rcases h2 with h2 | ⟨hbc, h2⟩
          · exact Or.inl (by omega)
          · exact Or.inr ⟨by omega, ih h1 h2⟩

theorem strLeB_refl (a : String) : strLeB a a = true := listCharLeB_refl _

theorem strLeB_total (a b : String) : strLeB a b = true ∨ strLeB b a = true :=
  listCharLeB_total _ _

theorem strLeB_trans {a b c : String} (h1 : strLeB a b = true)
    (h2 : strLeB b c = true) : strLeB a c = true :=
  listCharLeB_trans h1 h2

theorem insertSortedStr_perm (x : String) (l : List String) :
    List.Perm (insertSortedStr x l) (x :: l) := by
  induction l with
  | nil => exact List.Perm.refl _
  | cons y ys ih =>
    by_cases h : strLeB x y
    · simp only [insertSortedStr, h, if_pos]
      exact List.Perm.refl _
    · simp only [insertSortedStr, h, Bool.false_eq_true, if_false]
      exact (ih.cons y).trans (List.Perm.swap x y ys)

theorem sortStrings_perm (l : List String) : List.Perm (sortStrings l) l := by
  induction l with
  | nil => exact List.Perm.refl _
  | cons x xs ih =>
    exact (insertSortedStr_perm x (sortStrings xs)).trans (ih.cons x)

theorem pairwise_insertSortedStr {x : String} {l : List String}
    (h : l.Pairwise (fun a b => strLeB a b = true)) :
    (insertSortedStr x l).Pairwise (fun a b => strLeB a b = true) := by
  induction l with
  | nil => simp [insertSortedStr]
  | cons y ys ih =>
    rcases List.pairwise_cons.mp h with ⟨hy, hys⟩
    by_cases hxy : strLeB x y
    · simp only [insertSortedStr, hxy, if_pos]
      refine List.pairwise_cons.mpr ⟨?_, h⟩
      intro z hz
      rw [List.mem_cons] at hz
      rcases hz with rfl | hz
      · exact hxy
      · exact strLeB_trans hxy (hy _ hz)
    · have hyx : strLeB y x = true :=
        (strLeB_total x y).resolve_left (by simpa using hxy)
      simp only [insertSortedStr, hxy, Bool.false_eq_true, if_false]
      refine List.pairwise_cons.mpr ⟨?_, ih hys⟩
      intro z hz
      have hz' : z ∈ x :: ys := (insertSortedStr_perm x ys).mem_iff.mp hz
      rw [List.mem_cons] at hz'
      rcases hz' with rfl | hz'
      · exact hyx
      · exact hy _ hz'

theorem pairwise_sortStrings (l : List String) :
    (sortStrings l).Pairwise (fun a b => strLeB a b = true) := by
  induction l with
  | nil => simp [sortStrings]
  | cons x xs ih => exact pairwise_insertSortedStr ih

/-- In a list sorted by `strLeB`, the last element is a member and an upper
bound of every member. -/
theorem pairwise_getLast?_max {l : List String}
    (h : l.Pairwise (fun a b => strLeB a b = true)) {m : String}
    (hm : l.getLast? = some m) : m ∈ l ∧ ∀ x ∈ l, strLeB x m = true := by
  induction l with
  | nil => simp at hm
  | cons a l ih =>
    cases l with
    | nil =>
      have hma : m = a := by
        have : some a = some m := hm
        exact (Option.some.injEq _ _ ▸ this).symm
      subst hma
      refine ⟨List.mem_singleton_self _, ?_⟩
      intro x hx
      rw [List.mem_singleton] at hx
      subst hx
      exact strLeB_refl _
    | cons b t =>
      rcases List.pairwise_cons.mp h with ⟨ha, h'⟩
      have hm' : (b :: t).getLast? = some m := by
        rwa [List.getLast?_cons_cons] at hm
      rcases ih h' hm' with ⟨hmem, hbound⟩
      refine ⟨List.mem_cons_of_mem _ hmem, ?_⟩
      intro x hx
      rw [List.mem_cons] at hx
      rcases hx with rfl | hx
      · exact strLeB_trans (ha b (List.mem_cons_self _ _))
          (hbound b (List.mem_cons_self _ _))
      · exact hbound x hx

/-- The incomplete-directory marker used by the dataset builder
(`".incomplete" not in f` in `_get_data_dir`). -/
def incompleteMarker : String := ".incomplete"

/-! ## `DatasetBuilder._get_data_dir`

Source (`dataset_builder.py`, lines 244-271): with a `version` argument it
returns `os.path.join(root, name, version)` with no existence check; without
one it lists the dataset root directory (if it exists), keeps the sorted
entries not containing `".incomplete"`, and returns the path of the last one,
or `None`.  The filesystem is modelled by `rootListing`: `none` when
`tf.gfile.Exists(data_root_dir)` is false, `some entries` for the result of
`tf.gfile.ListDirectory`. -/

/-- The deterministic `<root>/<name>/<version>` path (`_get_data_dir` with a
version argument). -/
def versionDataDir (root name version : String) : String :=
  pathJoin (pathJoin root name) version

/-- Embedding of `DatasetBuilder._get_data_dir`. -/
def getDataDir (root name : String) (rootListing : Option (List String))
    (version : Option String) : Option String :=
  let dataRootDir := pathJoin root name
  match version with
  | some v => some (pathJoin dataRootDir v)
  | none =>
    match rootListing with
    | none => none
    | some entries =>
      let versionDirnames :=
        (sortStrings entries).filter (fun f => ! strContains f incompleteMarker)
      match versionDirnames.getLast? with
      | some last => some (pathJoin dataRootDir last)
      | none => none

/-- The filtered, sorted entry list that `_get_data_dir` inspects. -/
def versionDirnamesOf (es : List String) : List String :=
  (sortStrings es).filter (fun f => ! strContains f incompleteMarker)

theorem getDataDir_none_eq (root name : String) (es : List String) :
    getDataDir root name (some es) none =
      (versionDirnamesOf es).getLast?.map (fun last => pathJoin (pathJoin root name) last) := by
  show (match (versionDirnamesOf es).getLast? with
    | some last => some (pathJoin (pathJoin root name) last)
    | none => none) = _
  cases (versionDirnamesOf es).getLast? <;> rfl

theorem mem_versionDirnamesOf {es : List String} {e : String} :
    e ∈ versionDirnamesOf es ↔
      e ∈ es ∧ strContains e incompleteMarker = false := by
  unfold versionDirnamesOf
  rw [List.mem_filter, (sortStrings_perm es).mem_iff]
  simp [Bool.not_eq_true']

/-- Full characterization of `_get_data_dir`, shared by the claims below. -/
theorem getDataDir_characterization (root name : String)
    (listing : Option (List String)) :
    (∀ v, getDataDir root name listing (some v) =
        some (versionDataDir root name v))
    ∧ (getDataDir root name listing none = none ↔
        listing = none ∨
          ∃ es, listing = some es ∧
            ∀ e ∈ es, strContains e incompleteMarker = true)
    ∧ (∀ d, getDataDir root name listing none = some d →
        ∃ es m, listing = some es ∧ m ∈ es ∧
          strContains m incompleteMarker = false ∧
          (∀ e ∈ es, strContains e incompleteMarker = false →
            strLeB e m = true) ∧
          d = pathJoin (pathJoin root name) m) := by
  refine ⟨fun v => rfl, ?_, ?_⟩
  · cases listing with
    | none => simp [getDataDir]
    | some es =>
      rw [getDataDir_none_eq]
      constructor
      · intro h
        refine Or.inr ⟨es, rfl, ?_⟩
        intro e he
        by_contra hcon
        have hmem : e ∈ versionDirnamesOf es :=
          mem_versionDirnamesOf.mpr ⟨he, Bool.eq_false_iff.mpr hcon⟩
        have hne : versionDirnamesOf es ≠ [] := List.ne_nil_of_mem hmem
        rw [List.getLast?_eq_getLast_of_ne_nil hne] at h
        simp at h
      · rintro (h | ⟨es', hes', hall⟩)
        · exact absurd h (by simp)
        · have hes : es = es' := by injection hes'
          subst hes
          have hnil : versionDirnamesOf es = [] := by
            rcases hq : versionDirnamesOf es with _ | ⟨x, xs⟩
            · rfl
            · have hx : x ∈ versionDirnamesOf es := by rw [hq]; simp
              rcases mem_versionDirnamesOf.mp hx with ⟨hxe, hxf⟩
              rw [hall x hxe] at hxf
              cases hxf
          rw [hnil]
          rfl
  · intro d hd
    cases listing with
    | none => exact absurd hd (by simp [getDataDir])
    | some es =>
      rw [getDataDir_none_eq] at hd
      rcases hq : (versionDirnamesOf es).getLast? with _ | m
      · rw [hq] at hd; simp at hd
      · rw [hq] at hd
        simp only [Option.map_some', Option.some.injEq] at hd
        have hpw : (versionDirnamesOf es).Pairwise
            (fun a b => strLeB a b = true) :=
          (pairwise_sortStrings es).filter _
        rcases pairwise_getLast?_max hpw hq with ⟨hmem, hbound⟩
        rcases mem_versionDirnamesOf.mp hmem with ⟨hmes, hmf⟩
        refine ⟨es, m, rfl, hmes, hmf, ?_, hd.symm⟩
        intro e he hef
        exact hbound e (mem_versionDirnamesOf.mpr ⟨he, hef⟩)

/-- C1: `_get_data_dir` with a version argument returns the joined
`root/name/version` path with no existence check; with no version argument it
returns the path of the lexicographically last root entry not containing the
incomplete marker, and `none` exactly when the root directory does not exist
or has no such entry. -/
theorem getDataDir_latest_version_spec (root name : String)
    (listing : Option (List String)) :
    (∀ v, getDataDir root name listing (some v) =
        some (versionDataDir root name v))
    ∧ (getDataDir root name listing none = none ↔
        listing = none ∨
          ∃ es, listing = some es ∧
            ∀ e ∈ es, strContains e incompleteMarker = true)
    ∧ (∀ d, getDataDir root name listing none = some d →
        ∃ es m, listing = some es ∧ m ∈ es ∧
          strContains m incompleteMarker = false ∧
          (∀ e ∈ es, strContains e incompleteMarker = false →
            strLeB e m = true) ∧
          d = pathJoin (pathJoin root name) m) :=
  getDataDir_characterization root name listing

/-- Closed-form witness for `getDataDir_latest_version_spec`. -/
theorem getDataDir_latest_version_spec_witness :
    getDataDir "~" "mnist"
        (some ["v_20180101_0000", "v_20180601_1200",
          "v_20180601_1200.incomplete"]) none =
      some "~/mnist/v_20180601_1200" ∧
    ∃ es m,
      (some ["v_20180101_0000", "v_20180601_1200",
        "v_20180601_1200.incomplete"] : Option (List String)) = some es ∧
      m ∈ es ∧ strContains m incompleteMarker = false ∧
      (∀ e ∈ es, strContains e incompleteMarker = false →
        strLeB e m = true) ∧
      "~/mnist/v_20180601_1200" = pathJoin (pathJoin "~" "mnist") m := by
  have hres : getDataDir "~" "mnist"
      (some ["v_20180101_0000", "v_20180601_1200",
        "v_20180601_1200.incomplete"]) none =
      some "~/mnist/v_20180601_1200" := by decide
  refine ⟨hres, ?_⟩
  exact (getDataDir_latest_version_spec "~" "mnist"
    (some ["v_20180101_0000", "v_20180601_1200",
      "v_20180601_1200.incomplete"])).2.2 _ hres

/-- C10: `_get_data_dir` filters out every entry containing `".incomplete"`
anywhere in its name; if every entry of an existing root directory contains
the marker, it returns `none` even though entries exist. -/
theorem getDataDir_excludes_incomplete_anywhere (root name : String)
    (es : List String)
    (h : ∀ e ∈ es, strContains e incompleteMarker = true) :
    getDataDir root name (some es) none = none := by
  exact (getDataDir_characterization root name (some es)).2.1.mpr
    (Or.inr ⟨es, rfl, h⟩)

/-- Witness for `getDataDir_excludes_incomplete_anywhere`: the marker occurs
in the middle of the names, not as a suffix, and the listing is non-empty. -/
theorem getDataDir_excludes_incomplete_anywhere_witness :
    (["v_20180101_0000.incomplete.bak", "x.incompletey"] ≠ ([] : List String))
    ∧ getDataDir "~" "mnist"
        (some ["v_20180101_0000.incomplete.bak", "x.incompletey"]) none
      = none := by
  refine ⟨by decide, ?_⟩
  exact getDataDir_excludes_incomplete_anywhere "~" "mnist" _ (by decide)

/-! ## `DatasetBuilder.download_and_prepare`

Source (`dataset_builder.py`, lines 153-198).  The download subsystem and the
incomplete-directory helper live outside this repository; following the spec,
the download manager is a pair of a cache directory and a generation mode, and
the staging directory is the final version directory with `".incomplete"`
appended.  Wall-clock time (`version_str`), the success of the abstract
`_download_and_prepare` hook (`hookOk`) and the `DownloadManager` constructor's
default mode (`defaultMode`) are parameters of the embedding. -/

/-- Modelled from the spec: the download service's generation mode, a flag
"including at least `REUSE_DATASET_IF_EXISTS`" (the download module is not
part of this repository's sources). -/
inductive GenerateMode
  | REUSE_DATASET_IF_EXISTS
  | FORCE_REDOWNLOAD
deriving DecidableEq

/-- Modelled from the spec: the download manager, configured by
`configure(cache_dir, mode)` (the download module is not part of this
repository's sources). -/
structure DownloadManager where
  cache_dir : String
  mode : GenerateMode
deriving DecidableEq

/-- The mutable state of a `DatasetBuilder`. -/
structure BuilderState where
  data_dir_root : String
  name : String
  data_dir : Option String
deriving DecidableEq

/-- Python truthiness of an optional string argument (`if cache_dir:`). -/
def optTruthy : Option String → Bool
  | none => false
  | some s => decide (s ≠ "")

inductive PrepareStatus
  | valueError
  | reused
  | prepared
  | hookFailed
deriving DecidableEq

/-- Everything observable about one `download_and_prepare` call: the final
status, the builder's `_data_dir` after the call, whether the
`_download_and_prepare` hook was invoked, the download manager in use, and the
version directory promoted on success. -/
structure PrepareResult where
  status : PrepareStatus
  data_dir : Option String
  hookInvoked : Bool
  manager : Option DownloadManager
  promoted : Option String
deriving DecidableEq

/-- Resolution of the download manager in `download_and_prepare` (lines
168-177): default the cache directory to `<root>/tmp` when neither argument is
given, then construct a manager from a truthy cache directory, else use the
given one. -/
def resolveManager (defaultMode : GenerateMode) (b : BuilderState)
    (cache_dir : Option String) (dl_manager : Option DownloadManager) :
    DownloadManager :=
  let cd : Option String :=
    if optTruthy cache_dir = false ∧ dl_manager = none then
      some (pathJoin b.data_dir_root "tmp")
    else cache_dir
  match cd, dl_manager with
  | some c, m => if c = "" then m.getD ⟨c, defaultMode⟩ else ⟨c, defaultMode⟩
  | none, some m => m
  | none, none => ⟨pathJoin b.data_dir_root "tmp", defaultMode⟩

/-- Embedding of `DatasetBuilder.download_and_prepare`. -/
def download_and_prepare (defaultMode : GenerateMode) (b : BuilderState)
    (cache_dir : Option String) (dl_manager : Option DownloadManager)
    (version_str : String) (hookOk : Bool) : PrepareResult :=
  if optTruthy cache_dir = true ∧ dl_manager ≠ none then
    ⟨.valueError, b.data_dir, false, none, none⟩
  else
    let mgr := resolveManager defaultMode b cache_dir dl_manager
    if b.data_dir ≠ none ∧ mgr.mode = .REUSE_DATASET_IF_EXISTS then
      ⟨.reused, b.data_dir, false, some mgr, none⟩
    else
      let data_dir := versionDataDir b.data_dir_root b.name version_str
      let data_dir_tmp := data_dir ++ incompleteMarker
      if hookOk then
        ⟨.prepared, some data_dir, true, some mgr, some data_dir⟩
      else
        ⟨.hookFailed, some data_dir_tmp, true, some mgr, none⟩

theorem length_pathJoin (a b : String) :
    (pathJoin a b).length = a.length + 1 + b.length := by
  have h1 : String.length "/" = 1 := rfl
  simp [pathJoin, String.length_append, h1]

theorem pathJoin_ne_empty (a b : String) : pathJoin a b ≠ "" := by
  intro h
  have h' := congrArg String.length h
  rw [length_pathJoin] at h'
  have h0 : String.length "" = 0 := rfl
  omega

theorem append_incompleteMarker_ne (s : String) :
    s ++ incompleteMarker ≠ s := by
  intro h
  have h' := congrArg String.length h
  rw [String.length_append] at h'
  have h11 : incompleteMarker.length = 11 := rfl
  omega

theorem resolveManager_default (defaultMode : GenerateMode)
    (b : BuilderState) :
    resolveManager defaultMode b none none =
      ⟨pathJoin b.data_dir_root "tmp", defaultMode⟩ := by
  simp [resolveManager, optTruthy, pathJoin_ne_empty]

theorem resolveManager_given_manager (defaultMode : GenerateMode)
    (b : BuilderState) (cache_dir : Option String) (m : DownloadManager)
    (hc : optTruthy cache_dir = false) :
    resolveManager defaultMode b cache_dir (some m) = m := by
  cases cache_dir with
  | none => simp [resolveManager]
  | some s =>
    have hs : s = "" := by
      simpa [optTruthy] using hc
    subst hs
    simp [resolveManager, optTruthy]

/-- Core reuse short-circuit of `download_and_prepare` (lines 179-184). -/
theorem download_and_prepare_reuse_core (defaultMode : GenerateMode)
    (b : BuilderState) (cache_dir : Option String) (m : DownloadManager)
    (hmode : m.mode = .REUSE_DATASET_IF_EXISTS)
    (hc : optTruthy cache_dir = false) (version_str : String) (hookOk : Bool)
    (d : String) (hd : b.data_dir = some d) :
    download_and_prepare defaultMode b cache_dir (some m) version_str hookOk
      = ⟨.reused, some d, false, some m, none⟩ := by
  unfold download_and_prepare
  rw [if_neg (by simp [hc])]
  rw [resolveManager_given_manager defaultMode b cache_dir m hc]
  rw [if_pos (by simp [hd, hmode])]
  rw [hd]

/-- A `download_and_prepare` call that reports `prepared` has set `_data_dir`
to the new version directory. -/
theorem download_and_prepare_prepared_data_dir (defaultMode : GenerateMode)
    (b : BuilderState) (cache_dir : Option String)
    (dl_manager : Option DownloadManager) (version_str : String)
    (hookOk : Bool)
    (h : (download_and_prepare defaultMode b cache_dir dl_manager version_str
        hookOk).status = .prepared) :
    (download_and_prepare defaultMode b cache_dir dl_manager version_str
        hookOk).data_dir =
      some (versionDataDir b.data_dir_root b.name version_str) := by
  unfold download_and_prepare at h ⊢
  by_cases h1 : optTruthy cache_dir = true ∧ dl_manager ≠ none
  · rw [if_pos h1] at h
    simp at h
  · rw [if_neg h1] at h ⊢
    by_cases h2 : b.data_dir ≠ none ∧
        (resolveManager defaultMode b cache_dir dl_manager).mode =
          GenerateMode.REUSE_DATASET_IF_EXISTS
    · rw [if_pos h2] at h
      simp at h
    · rw [if_neg h2] at h ⊢
      cases hookOk with
      | true => rfl
      | false => simp at h

/-- C2: with a resolved data directory and a download manager in
`REUSE_DATASET_IF_EXISTS` mode, `download_and_prepare` is a no-op: status
`reused`, `_data_dir` unchanged, hook never invoked, nothing promoted; and a
second identical call after a successful prepare performs no generation
work. -/
theorem download_and_prepare_reuse_idempotent (defaultMode : GenerateMode)
    (b : BuilderState) (cache_dir : Option String) (m : DownloadManager)
    (hmode : m.mode = .REUSE_DATASET_IF_EXISTS)
    (hc : optTruthy cache_dir = false) (version_str : String)
    (hookOk : Bool) :
    (∀ d, b.data_dir = some d →
      download_and_prepare defaultMode b cache_dir (some m) version_str hookOk
        = ⟨.reused, some d, false, some m, none⟩)
    ∧ ((download_and_prepare defaultMode b cache_dir (some m) version_str
          true).status = .prepared →
        download_and_prepare defaultMode
            { b with data_dir :=
                (download_and_prepare defaultMode b cache_dir (some m)
                  version_str true).data_dir }
            cache_dir (some m) version_str hookOk
          = ⟨.reused,
              (download_and_prepare defaultMode b cache_dir (some m)
                version_str true).data_dir,
              false, some m, none⟩) := by
  constructor
  · intro d hd
    exact download_and_prepare_reuse_core defaultMode b cache_dir m hmode hc
      version_str hookOk d hd
  · intro hprep
    have hdir := download_and_prepare_prepared_data_dir defaultMode b
      cache_dir (some m) version_str true hprep
    rw [hdir]
    exact download_and_prepare_reuse_core defaultMode _ cache_dir m hmode hc
      version_str hookOk _ rfl

/-- Witness for `download_and_prepare_reuse_idempotent` at a concrete
builder. -/
theorem download_and_prepare_reuse_idempotent_witness :
    download_and_prepare .FORCE_REDOWNLOAD
        ⟨"~", "mnist", some "~/mnist/v_20180101_0000"⟩ none
        (some ⟨"~/tmp", .REUSE_DATASET_IF_EXISTS⟩) "v_20180601_1200" false
      = ⟨.reused, some "~/mnist/v_20180101_0000", false,
          some ⟨"~/tmp", .REUSE_DATASET_IF_EXISTS⟩, none⟩ :=
  (download_and_prepare_reuse_idempotent .FORCE_REDOWNLOAD
      ⟨"~", "mnist", some "~/mnist/v_20180101_0000"⟩ none
      ⟨"~/tmp", .REUSE_DATASET_IF_EXISTS⟩ rfl rfl "v_20180601_1200"
      false).1
    "~/mnist/v_20180101_0000" rfl

/-- C4: `download_and_prepare` signals `ValueError` exactly when a (truthy)
cache directory and a download manager are both supplied; when neither is
supplied, the default cache directory `<root>/tmp` is derived and a fresh
download manager is constructed from it. -/
theorem download_and_prepare_arg_validation (defaultMode : GenerateMode)
    (b : BuilderState) (cache_dir : Option String)
    (dl_manager : Option DownloadManager) (version_str : String)
    (hookOk : Bool) :
    ((download_and_prepare defaultMode b cache_dir dl_manager version_str
        hookOk).status = .valueError ↔
      optTruthy cache_dir = true ∧ dl_manager ≠ none)
    ∧ (cache_dir = none → dl_manager = none →
        (download_and_prepare defaultMode b cache_dir dl_manager version_str
            hookOk).manager =
          some ⟨pathJoin b.data_dir_root "tmp", defaultMode⟩) := by
  constructor
  · unfold download_and_prepare
    by_cases h1 : optTruthy cache_dir = true ∧ dl_manager ≠ none
    · rw [if_pos h1]
      simp [h1]
    · rw [if_neg h1]
      by_cases h2 : b.data_dir ≠ none ∧
          (resolveManager defaultMode b cache_dir dl_manager).mode =
            GenerateMode.REUSE_DATASET_IF_EXISTS
      · rw [if_pos h2]
        simp [h1]
      · rw [if_neg h2]
        cases hookOk <;> simp [h1]
  · intro hcd hdl
    subst hcd hdl
    unfold download_and_prepare
    rw [if_neg (by simp [optTruthy])]
    rw [resolveManager_default]
    by_cases h2 : b.data_dir ≠ none ∧
        (DownloadManager.mk (pathJoin b.data_dir_root "tmp")
          defaultMode).mode = GenerateMode.REUSE_DATASET_IF_EXISTS
    · rw [if_pos h2]
    · rw [if_neg h2]
      cases hookOk <;> rfl

/-- Witness for `download_and_prepare_arg_validation`: both supplied gives
`ValueError`; neither supplied constructs the manager on `<root>/tmp`. -/
theorem download_and_prepare_arg_validation_witness :
    ((download_and_prepare .REUSE_DATASET_IF_EXISTS ⟨"~", "mnist", none⟩
        (some "cache") (some ⟨"dl", .REUSE_DATASET_IF_EXISTS⟩)
        "v_20180601_1200" true).status = .valueError
      ↔ optTruthy (some "cache") = true ∧
          (some (DownloadManager.mk "dl" .REUSE_DATASET_IF_EXISTS) ≠ none))
    ∧ (download_and_prepare .REUSE_DATASET_IF_EXISTS ⟨"~", "mnist", none⟩
          none none "v_20180601_1200" true).manager =
        some ⟨pathJoin "~" "tmp", .REUSE_DATASET_IF_EXISTS⟩ :=
  ⟨(download_and_prepare_arg_validation .REUSE_DATASET_IF_EXISTS
      ⟨"~", "mnist", none⟩ (some "cache")
      (some ⟨"dl", .REUSE_DATASET_IF_EXISTS⟩) "v_20180601_1200" true).1,
    (download_and_prepare_arg_validation .REUSE_DATASET_IF_EXISTS
      ⟨"~", "mnist", none⟩ none none "v_20180601_1200" true).2 rfl rfl⟩

/-- C9: when the generation branch is reached and the
`_download_and_prepare` hook raises, the builder's `_data_dir` is left at the
`.incomplete` staging path (different from the final version path, and from a
previously unset `_data_dir`), and nothing is promoted; only when the hook
succeeds is `_data_dir` the final version directory. -/
theorem download_and_prepare_hook_failure_staging (defaultMode : GenerateMode)
    (b : BuilderState) (cache_dir : Option String)
    (dl_manager : Option DownloadManager) (version_str : String)
    (hargs : ¬(optTruthy cache_dir = true ∧ dl_manager ≠ none))
    (hgen : ¬(b.data_dir ≠ none ∧
      (resolveManager defaultMode b cache_dir dl_manager).mode =
        GenerateMode.REUSE_DATASET_IF_EXISTS)) :
    (download_and_prepare defaultMode b cache_dir dl_manager version_str
        false).data_dir =
      some (versionDataDir b.data_dir_root b.name version_str ++
        incompleteMarker)
    ∧ (download_and_prepare defaultMode b cache_dir dl_manager version_str
        false).promoted = none
    ∧ versionDataDir b.data_dir_root b.name version_str ++ incompleteMarker ≠
        versionDataDir b.data_dir_root b.name version_str
    ∧ (b.data_dir = none →
        (download_and_prepare defaultMode b cache_dir dl_manager version_str
          false).data_dir ≠ b.data_dir)
    ∧ (download_and_prepare defaultMode b cache_dir dl_manager version_str
        true).data_dir =
      some (versionDataDir b.data_dir_root b.name version_str) := by
  have hres : download_and_prepare defaultMode b cache_dir dl_manager
      version_str false =
      ⟨.hookFailed,
        some (versionDataDir b.data_dir_root b.name version_str ++
          incompleteMarker),
        true, some (resolveManager defaultMode b cache_dir dl_manager),
        none⟩ := by
    unfold download_and_prepare
    rw [if_neg hargs, if_neg hgen]
    rfl
  have hres' : download_and_prepare defaultMode b cache_dir dl_manager
      version_str true =
      ⟨.prepared, some (versionDataDir b.data_dir_root b.name version_str),
        true, some (resolveManager defaultMode b cache_dir dl_manager),
        some (versionDataDir b.data_dir_root b.name version_str)⟩ := by
    unfold download_and_prepare
    rw [if_neg hargs, if_neg hgen]
    rfl
  refine ⟨by rw [hres], by rw [hres], append_incompleteMarker_ne _, ?_,
    by rw [hres']⟩
  intro hnone
  rw [hres, hnone]
  simp

/-- Witness for `download_and_prepare_hook_failure_staging` at a concrete
builder with no resolved data directory. -/
theorem download_and_prepare_hook_failure_staging_witness :
    (download_and_prepare .REUSE_DATASET_IF_EXISTS ⟨"~", "mnist", none⟩ none
        (some ⟨"cache", .REUSE_DATASET_IF_EXISTS⟩) "v_20180601_1200"
        false).data_dir =
      some (versionDataDir "~" "mnist" "v_20180601_1200" ++ incompleteMarker)
    ∧ (download_and_prepare .REUSE_DATASET_IF_EXISTS ⟨"~", "mnist", none⟩ none
        (some ⟨"cache", .REUSE_DATASET_IF_EXISTS⟩) "v_20180601_1200"
        true).data_dir =
      some (versionDataDir "~" "mnist" "v_20180601_1200") := by
  have h := download_and_prepare_hook_failure_staging .REUSE_DATASET_IF_EXISTS
    ⟨"~", "mnist", none⟩ none (some ⟨"cache", .REUSE_DATASET_IF_EXISTS⟩)
    "v_20180601_1200" (by simp [optTruthy]) (by simp)
  exact ⟨h.1, h.2.2.2.2⟩

/-! ## Splits, split files and split generators

Source (`dataset_builder.py`): the `Split` enum (lines 49-71), `SplitFiles`
(lines 74-116), `SplitGenerator` (lines 311-335) and
`GeneratorBasedDatasetBuilder._download_and_prepare` (lines 445-454).  The
`naming` and `file_format_adapter` modules are external to this repository's
sources, so shard naming and `do_files_exist` are modelled from the spec. -/

/-- The `Split` enum: TRAIN, VALIDATION, TEST. -/
inductive Split
  | TRAIN
  | VALIDATION
  | TEST
deriving DecidableEq

/-- The string value of each `Split` member. -/
def Split.str : Split → String
  | .TRAIN => "train"
  | .VALIDATION => "validation"
  | .TEST => "test"

/-- Error taxonomy of the naming layer: `invalidState` for a null shard
count, `invalidArgument` for a non-positive one. -/
inductive NamingError
  | invalidState
  | invalidArgument
deriving DecidableEq

/-- Zero-pad a number to five digits (the `%05d` shard spec). -/
def pad5 (n : Nat) : String :=
  let s := toString n
  String.mk (List.replicate (5 - s.length) '0') ++ s

/-- Modelled from the spec: `naming.filepaths_for_dataset_split` (the
`naming` module is not part of this repository's sources).  Produces the
persisted layout
`<data_dir>/<dataset_name>-<split>.<suffix>-<i:05d>-of-<n:05d>` for each shard
index; requires `num_shards` to be set (else InvalidState) and positive (else
InvalidArgument). -/
def filepaths_for_dataset_split (dataset_name : String) (split : Split)
    (num_shards : Option Nat) (data_dir : String)
    (filetype_suffix : Option String) : Except NamingError (List String) :=
  match num_shards with
  | none => .error .invalidState
  | some n =>
    if n = 0 then .error .invalidArgument
    else
      let suffixPart : String :=
        match filetype_suffix with
        | none => ""
        | some s => "." ++ s
      .ok ((List.range n).map fun i =>
        pathJoin data_dir
          (dataset_name ++ "-" ++ split.str ++ suffixPart ++ "-" ++
            pad5 i ++ "-of-" ++ pad5 n))

/-- The `SplitFiles` value object (constructor fields, lines 77-94). -/
structure SplitFiles where
  dataset_name : String
  split : Split
  num_shards : Option Nat
  data_dir : String
  filetype_suffix : Option String
deriving DecidableEq

/-- Embedding of `SplitFiles.filepaths` (lines 96-104): delegates to the naming layer. -/
def SplitFiles.filepaths (s : SplitFiles) : Except NamingError (List String) :=
  filepaths_for_dataset_split s.dataset_name s.split s.num_shards s.data_dir
    s.filetype_suffix

/-- Embedding of `SplitFiles.exists` (lines 115-116): `do_files_exist` on `filepaths`,
where the backing store is modelled by the predicate `fileOnDisk` and
`do_files_exist` (spec: external format-adapter service) is "every path is
present". -/
def SplitFiles.filesExist (fileOnDisk : String → Bool) (s : SplitFiles) :
    Except NamingError Bool :=
  (s.filepaths).map (fun ps => ps.all fileOnDisk)

/-- C8: asking a split descriptor for its concrete file paths requires
`num_shards` to be set: a null shard count yields the InvalidState condition,
never a path list. -/
theorem splitFiles_filepaths_requires_num_shards (s : SplitFiles)
    (h : s.num_shards = none) :
    s.filepaths = .error NamingError.invalidState := by
  unfold SplitFiles.filepaths filepaths_for_dataset_split
  rw [h]

/-- Witness for `splitFiles_filepaths_requires_num_shards`. -/
theorem splitFiles_filepaths_requires_num_shards_witness :
    SplitFiles.filepaths ⟨"mnist", Split.TRAIN, none, "~/mnist/v_1", none⟩ =
      .error NamingError.invalidState :=
  splitFiles_filepaths_requires_num_shards
    ⟨"mnist", Split.TRAIN, none, "~/mnist/v_1", none⟩ rfl

/-- Sequence a list of fallible computations, propagating the first error
(Python evaluates each element of a list comprehension in order and the first
raise propagates). -/
def mapExcept {α β ε : Type} (f : α → Except ε β) : List α → Except ε (List β)
  | [] => .ok []
  | a :: t =>
    match f a with
    | .error e => .error e
    | .ok b =>
      match mapExcept f t with
      | .error e => .error e
      | .ok bs => .ok (b :: bs)

theorem all_map_id {α : Type} (l : List α) (f : α → Bool) :
    (l.map f).all id = l.all f := by
  induction l with
  | nil => rfl
  | cons a t ih => simp [List.all_cons, ih]

theorem mapExcept_ok {α β ε : Type} (f : α → Except ε β) (spec : α → β)
    (l : List α) (h : ∀ a ∈ l, f a = .ok (spec a)) :
    mapExcept f l = .ok (l.map spec) := by
  induction l with
  | nil => rfl
  | cons a t ih =>
    unfold mapExcept
    rw [h a (List.mem_cons_self _ _), ih (fun x hx => h x (List.mem_cons_of_mem _ hx))]
    rfl

/-- Embedding of `SplitGenerator` (lines 311-335): an opaque handle to the example
generator function together with the split descriptors its output is sharded
across. -/
structure SplitGenerator where
  generator_fn : Nat
  split_files : List SplitFiles
deriving DecidableEq

/-- Embedding of `SplitGenerator.output_files_exist` (lines 321-323): all owned
descriptors report existence. -/
def SplitGenerator.output_files_exist (fileOnDisk : String → Bool)
    (g : SplitGenerator) : Except NamingError Bool :=
  (mapExcept (SplitFiles.filesExist fileOnDisk) g.split_files).map
    (fun bs => bs.all id)

/-- Embedding of `SplitGenerator.output_files` (lines 325-331): concatenation of every
descriptor's file paths, in descriptor order. -/
def SplitGenerator.output_files (g : SplitGenerator) :
    Except NamingError (List String) :=
  (mapExcept SplitFiles.filepaths g.split_files).map List.flatten

/-- Embedding of `SplitGenerator.splits` (lines 333-335). -/
def SplitGenerator.splits (g : SplitGenerator) : List Split :=
  g.split_files.map (fun sf => sf.split)

/-- One write call handed to the format adapter: the generator handle and the
output file list. -/
abbrev WriteCall := Nat × List String

/-- Embedding of `GeneratorBasedDatasetBuilder._download_and_prepare` (lines
445-454): process the split generators in order, skip a generator whose
output files all exist, otherwise call `write_from_generator` once with its
generator function and its `output_files`.  The returned list records the
write calls in order. -/
def downloadAndPrepareWrites (fileOnDisk : String → Bool) :
    List SplitGenerator → Except NamingError (List WriteCall)
  | [] => .ok []
  | g :: rest =>
    match g.output_files_exist fileOnDisk with
    | .error e => .error e
    | .ok true => downloadAndPrepareWrites fileOnDisk rest
    | .ok false =>
      match g.output_files with
      | .error e => .error e
      | .ok files =>
        match downloadAndPrepareWrites fileOnDisk rest with
        | .error e => .error e
        | .ok ws => .ok ((g.generator_fn, files) :: ws)

/-- The file list of a descriptor whose shard count is set (spec view). -/
def specFiles (s : SplitFiles) : List String :=
  match s.num_shards with
  | none => []
  | some n =>
    let suffixPart : String :=
      match s.filetype_suffix with
      | none => ""
      | some suf => "." ++ suf
    (List.range n).map fun i =>
      pathJoin s.data_dir
        (s.dataset_name ++ "-" ++ s.split.str ++ suffixPart ++ "-" ++
          pad5 i ++ "-of-" ++ pad5 n)

/-- Spec view of "all of this generator's output files exist". -/
def specGenExists (fileOnDisk : String → Bool) (g : SplitGenerator) : Bool :=
  g.split_files.all (fun s => (specFiles s).all fileOnDisk)

/-- Spec view of a generator's full write-target set: concatenation of every
descriptor's files, in descriptor order. -/
def specGenFiles (g : SplitGenerator) : List String :=
  (g.split_files.map specFiles).flatten

theorem filepaths_ok_of_shards_set {s : SplitFiles}
    (h : s.num_shards ≠ none ∧ s.num_shards ≠ some 0) :
    s.filepaths = .ok (specFiles s) := by
  rcases h with ⟨h1, h2⟩
  unfold SplitFiles.filepaths filepaths_for_dataset_split specFiles
  cases hn : s.num_shards with
  | none => exact absurd hn h1
  | some n =>
    have hn0 : n ≠ 0 := by
      intro h0
      exact h2 (by rw [hn, h0])
    simp [hn0]

theorem filesExist_ok_of_shards_set (fileOnDisk : String → Bool)
    {s : SplitFiles} (h : s.num_shards ≠ none ∧ s.num_shards ≠ some 0) :
    s.filesExist fileOnDisk = .ok ((specFiles s).all fileOnDisk) := by
  unfold SplitFiles.filesExist
  rw [filepaths_ok_of_shards_set h]
  rfl

theorem output_files_exist_ok (fileOnDisk : String → Bool)
    {g : SplitGenerator}
    (h : ∀ s ∈ g.split_files, s.num_shards ≠ none ∧ s.num_shards ≠ some 0) :
    g.output_files_exist fileOnDisk = .ok (specGenExists fileOnDisk g) := by
  unfold SplitGenerator.output_files_exist
  rw [mapExcept_ok _ (fun s => (specFiles s).all fileOnDisk) _
    (fun s hs => filesExist_ok_of_shards_set fileOnDisk (h s hs))]
  simp only [Except.map]
  unfold specGenExists
  rw [all_map_id]

theorem output_files_ok {g : SplitGenerator}
    (h : ∀ s ∈ g.split_files, s.num_shards ≠ none ∧ s.num_shards ≠ some 0) :
    g.output_files = .ok (specGenFiles g) := by
  unfold SplitGenerator.output_files
  rw [mapExcept_ok _ specFiles _ (fun s hs => filepaths_ok_of_shards_set (h s hs))]
  rfl

/-- C3: `_download_and_prepare` of the generator-based builder processes the
generators in order; a generator whose output files all exist contributes no
write, every other generator contributes exactly one write call carrying its
`generator_fn` and the concatenation, in descriptor order, of its
descriptors' file paths. -/
theorem generator_based_download_and_prepare_writes
    (fileOnDisk : String → Bool) (gens : List SplitGenerator)
    (hok : ∀ g ∈ gens, ∀ s ∈ g.split_files,
      s.num_shards ≠ none ∧ s.num_shards ≠ some 0) :
    downloadAndPrepareWrites fileOnDisk gens =
      .ok ((gens.filter (fun g => ! specGenExists fileOnDisk g)).map
        (fun g => (g.generator_fn, specGenFiles g))) := by
  induction gens with
  | nil => rfl
  | cons g rest ih =>
    have hg := hok g (List.mem_cons_self _ _)
    have hrest := fun x hx => hok x (List.mem_cons_of_mem _ hx)
    unfold downloadAndPrepareWrites
    rw [output_files_exist_ok fileOnDisk hg]
    cases hb : specGenExists fileOnDisk g with
    | true =>
      rw [ih hrest]
      simp [List.filter_cons, hb]
    | false =>
      rw [output_files_ok hg, ih hrest]
      simp [List.filter_cons, hb]

/-- Witness for `generator_based_download_and_prepare_writes`: one generator
with two descriptors and no files on disk yields exactly one write call with
the concatenated shard paths. -/
theorem generator_based_download_and_prepare_writes_witness :
    downloadAndPrepareWrites (fun _ => false)
        [⟨7, [⟨"mnist", Split.TRAIN, some 1, "~/mnist/v_1", none⟩,
              ⟨"mnist", Split.TEST, some 1, "~/mnist/v_1", none⟩]⟩] =
      .ok [(7, ["~/mnist/v_1/mnist-train-00000-of-00001",
                "~/mnist/v_1/mnist-test-00000-of-00001"])] := by
  rw [generator_based_download_and_prepare_writes (fun _ => false) _
    (by decide)]
  rfl

/-! ## `GeneratorBasedDatasetBuilder._as_dataset`

Source (`dataset_builder.py`, lines 456-462): resolves the split's glob
pattern and calls `dataset_utils.build_dataset` (external) with it and the
shuffle flag `split == Split.TRAIN if shuffle_files is None else
shuffle_files`.  The embedding records the arguments handed to
`build_dataset`. -/

/-- Modelled from the spec: `naming.filepattern_for_dataset_split` (the
`naming` module is not part of this repository's sources) — the shard naming
scheme with the shard spec replaced by a wildcard. -/
def filepattern_for_dataset_split (dataset_name : String) (split : Split)
    (data_dir : String) (filetype_suffix : Option String) : String :=
  let suffixPart : String :=
    match filetype_suffix with
    | none => ""
    | some s => "." ++ s
  pathJoin data_dir (dataset_name ++ "-" ++ split.str ++ suffixPart ++ "-*")

/-- The arguments `_as_dataset` passes to the external `build_dataset`. -/
structure BuildDatasetArgs where
  filepattern : String
  shuffle_files : Bool
deriving DecidableEq

/-- Embedding of `GeneratorBasedDatasetBuilder._as_dataset`. -/
def generatorBasedAsDataset (name data_dir : String)
    (filetype_suffix : Option String) (split : Split)
    (shuffle_files : Option Bool) : BuildDatasetArgs :=
  { filepattern :=
      filepattern_for_dataset_split name split data_dir filetype_suffix,
    shuffle_files :=
      match shuffle_files with
      | none => decide (split = Split.TRAIN)
      | some b => b }

/-- C6: without an explicit `shuffle_files`, `_as_dataset` shuffles exactly
when the split is TRAIN; an explicit boolean overrides the default. -/
theorem as_dataset_shuffle_default (name data_dir : String)
    (filetype_suffix : Option String) (split : Split)
    (shuffle_files : Option Bool) :
    ((generatorBasedAsDataset name data_dir filetype_suffix split
        shuffle_files).shuffle_files = true ↔
      shuffle_files = some true ∨
        (shuffle_files = none ∧ split = Split.TRAIN))
    ∧ (∀ b, shuffle_files = some b →
        (generatorBasedAsDataset name data_dir filetype_suffix split
          shuffle_files).shuffle_files = b) := by
  cases shuffle_files with
  | none => cases split <;> simp [generatorBasedAsDataset]
  | some b => cases b <;> simp [generatorBasedAsDataset]

/-- Witness for `as_dataset_shuffle_default`. -/
theorem as_dataset_shuffle_default_witness :
    (generatorBasedAsDataset "mnist" "~/mnist/v_1" none Split.TRAIN
        none).shuffle_files = true
    ∧ (generatorBasedAsDataset "mnist" "~/mnist/v_1" none Split.TEST
        none).shuffle_files = false
    ∧ (generatorBasedAsDataset "mnist" "~/mnist/v_1" none Split.TRAIN
        (some false)).shuffle_files = false := by
  refine ⟨?_, by decide, ?_⟩
  · exact (as_dataset_shuffle_default "mnist" "~/mnist/v_1" none Split.TRAIN
      none).1.mpr (Or.inr ⟨rfl, rfl⟩)
  · exact (as_dataset_shuffle_default "mnist" "~/mnist/v_1" none Split.TRAIN
      (some false)).2 false rfl

/-! ## `TFGraphRunner` (`tf_utils.py`, lines 29-118)

The runner memoizes one compiled graph per signature
`(id(fct), input.dtype, input.shape)`.  Function objects are modelled by
opaque identity handles (`id(fct)`), with their semantics supplied as the
parameter `apply`; arrays carry a dtype, a shape and an opaque payload.
Eager vs. graph mode (`tf.executing_eagerly()`) is the parameter `eager`;
`.numpy()` materialization is the identity in this model.  The cache is the
association list `graph_run_cache` (Python dict keyed by signature). -/

/-- An opaque handle standing for a Python function's identity (`id(fct)`). -/
abbrev FctId := Nat

/-- A NumPy array: dtype, shape, opaque payload. -/
structure NpArray where
  dtype : String
  shape : List Nat
  payload : Nat
deriving DecidableEq

/-- Embedding of `TFGraphRunner._build_signature`: `(id(fct), dtype, shape)`. -/
abbrev Signature := FctId × String × List Nat

def build_signature (fct : FctId) (input_ : NpArray) : Signature :=
  (fct, input_.dtype, input_.shape)

/-- A `GraphRun`: the compiled graph and session for one signature, holding
the function and the placeholder built from the input's dtype and shape
(`_build_graph_run`). -/
structure GraphRun where
  fct : FctId
  placeholderDtype : String
  placeholderShape : List Nat
deriving DecidableEq

/-- Embedding of `TFGraphRunner._build_graph_run`. -/
def build_graph_run (fct : FctId) (input_ : NpArray) : GraphRun :=
  ⟨fct, input_.dtype, input_.shape⟩

/-- Embedding of `session.run(output, feed_dict with the placeholder bound to the input)`: the graph
computes `fct` of the fed input. -/
def sessionRun (apply : FctId → NpArray → NpArray) (g : GraphRun)
    (input_ : NpArray) : NpArray :=
  apply g.fct input_

/-- The runner state: `self._graph_run_cache`. -/
structure TFGraphRunner where
  graph_run_cache : List (Signature × GraphRun)
deriving DecidableEq

/-- Dict lookup by signature. -/
def lookupSig (sig : Signature) : List (Signature × GraphRun) →
    Option GraphRun
  | [] => none
  | (s, g) :: t => if s = sig then some g else lookupSig sig t

/-- Embedding of `TFGraphRunner.run` (lines 69-91): in eager mode apply the
function and materialize; in graph mode look the signature up, building and
caching a fresh graph on a miss, then execute the cached graph. -/
def TFGraphRunner.run (eager : Bool) (apply : FctId → NpArray → NpArray)
    (r : TFGraphRunner) (fct : FctId) (input_ : NpArray) :
    NpArray × TFGraphRunner :=
  if eager then (apply fct input_, r)
  else
    match lookupSig (build_signature fct input_) r.graph_run_cache with
    | some graph_run => (sessionRun apply graph_run input_, r)
    | none =>
      (sessionRun apply (build_graph_run fct input_) input_,
        ⟨(build_signature fct input_, build_graph_run fct input_) ::
          r.graph_run_cache⟩)

theorem lookupSig_after_run_miss (apply : FctId → NpArray → NpArray)
    (r : TFGraphRunner) (fct : FctId) (input_ : NpArray)
    (h : lookupSig (build_signature fct input_) r.graph_run_cache = none) :
    lookupSig (build_signature fct input_)
        (TFGraphRunner.run false apply r fct input_).2.graph_run_cache =
      some (build_graph_run fct input_) := by
  unfold TFGraphRunner.run
  rw [if_neg (by simp)]
  rw [h]
  simp [lookupSig]

/-- C5: in deferred-graph mode the cache is keyed by
`(id(fct), dtype, shape)`: a second `run` with the same function and a
same-dtype same-shape input leaves the cache untouched and executes the
stored graph; a previously unseen signature adds exactly one entry; in eager
mode `run` just applies the function and leaves the runner unchanged. -/
theorem tf_graph_runner_run_cache (apply : FctId → NpArray → NpArray)
    (r : TFGraphRunner) (fct : FctId) (input_ : NpArray) :
    (TFGraphRunner.run true apply r fct input_ = (apply fct input_, r))
    ∧ (lookupSig (build_signature fct input_) r.graph_run_cache = none →
        (TFGraphRunner.run false apply r fct
            input_).2.graph_run_cache.length =
          r.graph_run_cache.length + 1)
    ∧ (∀ input2 : NpArray, input2.dtype = input_.dtype →
        input2.shape = input_.shape →
        ∃ g, lookupSig (build_signature fct input2)
            (TFGraphRunner.run false apply r fct
              input_).2.graph_run_cache = some g ∧
          TFGraphRunner.run false apply
              (TFGraphRunner.run false apply r fct input_).2 fct input2 =
            (sessionRun apply g input2,
              (TFGraphRunner.run false apply r fct input_).2)) := by
  refine ⟨by simp [TFGraphRunner.run], ?_, ?_⟩
  · intro h
    unfold TFGraphRunner.run
    rw [if_neg (by simp)]
    rw [h]
    simp
  · intro input2 hdt hsh
    have hsig : build_signature fct input2 = build_signature fct input_ := by
      unfold build_signature
      rw [hdt, hsh]
    cases hl : lookupSig (build_signature fct input_) r.graph_run_cache with
    | some g =>
      have hstate : (TFGraphRunner.run false apply r fct input_).2 = r := by
        unfold TFGraphRunner.run
        rw [if_neg (by simp), hl]
      refine ⟨g, by rw [hstate, hsig, hl], ?_⟩
      rw [hstate]
      unfold TFGraphRunner.run
      rw [if_neg (by simp), hsig, hl]
    | none =>
      have hfound := lookupSig_after_run_miss apply r fct input_ hl
      refine ⟨build_graph_run fct input_, by rw [hsig]; exact hfound, ?_⟩
      generalize hr1 : (TFGraphRunner.run false apply r fct input_).2 = r1
      rw [hr1] at hfound
      unfold TFGraphRunner.run
      rw [if_neg (by simp), hsig, hfound]

/-- Witness for `tf_graph_runner_run_cache`: starting from an empty cache,
one miss then one hit. -/
theorem tf_graph_runner_run_cache_witness :
    (TFGraphRunner.run false (fun _ a => a) ⟨[]⟩ 0
        ⟨"float32", [5], 0⟩).2.graph_run_cache.length = 1
    ∧ ∃ g, lookupSig (build_signature 0 ⟨"float32", [5], 1⟩)
          (TFGraphRunner.run false (fun _ a => a) ⟨[]⟩ 0
            ⟨"float32", [5], 0⟩).2.graph_run_cache = some g ∧
        TFGraphRunner.run false (fun _ a => a)
            (TFGraphRunner.run false (fun _ a => a) ⟨[]⟩ 0
              ⟨"float32", [5], 0⟩).2 0 ⟨"float32", [5], 1⟩ =
          (sessionRun (fun _ a => a) g ⟨"float32", [5], 1⟩,
            (TFGraphRunner.run false (fun _ a => a) ⟨[]⟩ 0
              ⟨"float32", [5], 0⟩).2) := by
  have h := tf_graph_runner_run_cache (fun _ a => a) ⟨[]⟩ 0
    ⟨"float32", [5], 0⟩
  exact ⟨h.2.1 rfl, h.2.2 ⟨"float32", [5], 1⟩ rfl rfl⟩

/-! ## `assert_shape_match` (`tf_utils.py`, lines 130-147)

Shapes are tuples of dimensions that may be `None`; the helper first compares
lengths (raising with the two lengths in the message) and then compares every
position of `shape2` that is not `None` (raising with the two rendered shapes
in the message).  `formatShape` renders Python's `str.format` of a tuple. -/

def formatDim : Option Nat → String
  | none => "None"
  | some n => toString n

/-- Python `repr` of a tuple of dims: `(64, 64, 3)`, `(64,)`, `()`. -/
def formatShape : List (Option Nat) → String
  | [] => "()"
  | [a] => "(" ++ formatDim a ++ ",)"
  | a :: rest =>
    "(" ++ formatDim a ++
      String.join (rest.map (fun d => ", " ++ formatDim d)) ++ ")"

/-- Python `all(s1 == s2 for s1, s2 in zip(shape1, shape2) if s2 is not None)`. -/
def shapesElementwiseMatch (shape1 shape2 : List (Option Nat)) : Bool :=
  (shape1.zip shape2).all fun p =>
    match p.2 with
    | none => true
    | some v => decide (p.1 = some v)

/-- Embedding of `assert_shape_match` (the raised `ValueError` messages are
the `Except.error` values). -/
def assert_shape_match (shape1 shape2 : List (Option Nat)) :
    Except String Unit :=
  if shape1.length ≠ shape2.length then
    .error ("Shapes should have same length: " ++ toString shape1.length ++
      " - " ++ toString shape2.length)
  else if ! shapesElementwiseMatch shape1 shape2 then
    .error ("Shape " ++ formatShape shape1 ++ " do not match " ++
      formatShape shape2)
  else .ok ()

theorem isPrefixOf_self_append (n t : List Char) :
    n.isPrefixOf (n ++ t) = true := by
  induction n with
  | nil => cases t <;> rfl
  | cons a n ih => simp [List.isPrefixOf, ih]

theorem listContainsSub_of_isPrefixOf (n hay : List Char)
    (h : n.isPrefixOf hay = true) : listContainsSub n hay = true := by
  cases hay with
  | nil => exact h
  | cons c rest => simp [listContainsSub, h]

theorem listContainsSub_infix (pre n post : List Char) :
    listContainsSub n (pre ++ (n ++ post)) = true := by
  induction pre with
  | nil => exact listContainsSub_of_isPrefixOf n _ (isPrefixOf_self_append n post)
  | cons c pre ih => simp [listContainsSub, ih]

theorem strContains_infix (pre n post : String) :
    strContains (pre ++ (n ++ post)) n = true := by
  unfold strContains
  have h : (pre ++ (n ++ post)).toList =
      pre.toList ++ (n.toList ++ post.toList) := by
    simp [String.toList, String.data_append]
  rw [h]
  exact listContainsSub_infix _ _ _

theorem shapesElementwiseMatch_iff (shape1 shape2 : List (Option Nat)) :
    shapesElementwiseMatch shape1 shape2 = true ↔
      ∀ i (h1 : i < shape1.length) (h2 : i < shape2.length),
        shape2.get ⟨i, h2⟩ ≠ none →
          shape1.get ⟨i, h1⟩ = shape2.get ⟨i, h2⟩ := by
  induction shape1 generalizing shape2 with
  | nil =>
    simp only [shapesElementwiseMatch, List.zip_nil_left, List.all_nil,
      List.length_nil, true_iff]
    intro i h1
    exact absurd h1 (Nat.not_lt_zero i)
  | cons a s1 ih =>
    cases shape2 with
    | nil =>
      simp only [shapesElementwiseMatch, List.zip_nil_right, List.all_nil,
        List.length_nil, true_iff]
      intro i h1 h2
      exact absurd h2 (Nat.not_lt_zero i)
    | cons b s2 =>
      unfold shapesElementwiseMatch
      rw [List.zip_cons_cons, List.all_cons, Bool.and_eq_true]
      constructor
      · rintro ⟨hhead, htail⟩ i h1 h2 hne
        cases i with
        | zero =>
          show a = b
          cases hb : b with
          | none => exact absurd hb hne
          | some v =>
            rw [hb] at hhead
            simpa using hhead
        | succ i =>
          exact (ih s2).mp htail i (Nat.lt_of_succ_lt_succ h1)
            (Nat.lt_of_succ_lt_succ h2) hne
      · intro h
        constructor
        · cases hb : b with
          | none => rfl
          | some v =>
            have := h 0 (Nat.succ_pos _) (Nat.succ_pos _)
              (by rw [show (b :: s2).get ⟨0, Nat.succ_pos _⟩ = b from rfl, hb]
                  exact Option.some_ne_none v)
            rw [show (b :: s2).get ⟨0, Nat.succ_pos _⟩ = b from rfl, hb] at this
            rw [show (a :: s1).get ⟨0, Nat.succ_pos _⟩ = a from rfl] at this
            simpa using this
        · refine (ih s2).mpr ?_
          intro i h1 h2 hne
          exact h (i + 1) (Nat.succ_lt_succ h1) (Nat.succ_lt_succ h2) hne

/-- C7 counterexample: on shapes of different lengths, `assert_shape_match`
fails, but the error message names the two lengths, not the two shapes. -/
theorem assert_shape_match_length_message_counterexample :
    assert_shape_match [some 64, some 64, some 3] [some 64, some 64] =
      .error "Shapes should have same length: 3 - 2"
    ∧ strContains "Shapes should have same length: 3 - 2"
        (formatShape [some 64, some 64, some 3]) = false
    ∧ strContains "Shapes should have same length: 3 - 2"
        (formatShape [some 64, some 64]) = false :=
  ⟨rfl, by decide, by decide⟩

/-- C7 (amended): `assert_shape_match` succeeds iff the shapes have equal
length and agree at every position where `shape2` is not `None`; on an
elementwise mismatch of equal-length shapes the error message names both
shapes; on a length mismatch it fails with the two lengths in the message. -/
theorem assert_shape_match_spec (shape1 shape2 : List (Option Nat)) :
    (assert_shape_match shape1 shape2 = .ok () ↔
      shape1.length = shape2.length ∧
        ∀ i (h1 : i < shape1.length) (h2 : i < shape2.length),
          shape2.get ⟨i, h2⟩ ≠ none →
            shape1.get ⟨i, h1⟩ = shape2.get ⟨i, h2⟩)
    ∧ (shape1.length = shape2.length →
        shapesElementwiseMatch shape1 shape2 = false →
        assert_shape_match shape1 shape2 =
          .error ("Shape " ++ formatShape shape1 ++ " do not match " ++
            formatShape shape2) ∧
        strContains ("Shape " ++ formatShape shape1 ++ " do not match " ++
          formatShape shape2) (formatShape shape1) = true ∧
        strContains ("Shape " ++ formatShape shape1 ++ " do not match " ++
          formatShape shape2) (formatShape shape2) = true)
    ∧ (shape1.length ≠ shape2.length →
        assert_shape_match shape1 shape2 =
          .error ("Shapes should have same length: " ++
            toString shape1.length ++ " - " ++ toString shape2.length)) := by
  refine ⟨?_, ?_, ?_⟩
  · unfold assert_shape_match
    by_cases hlen : shape1.length = shape2.length
    · rw [if_neg (by simp [hlen])]
      cases helem : shapesElementwiseMatch shape1 shape2 with
      | true =>
        rw [if_neg (by decide)]
        constructor
        · intro _
          exact ⟨hlen, (shapesElementwiseMatch_iff shape1 shape2).mp helem⟩
        · intro _
          rfl
      | false =>
        rw [if_pos (by decide)]
        constructor
        · intro h
          exact absurd h (by simp)
        · rintro ⟨_, hall⟩
          rw [(shapesElementwiseMatch_iff shape1 shape2).mpr hall] at helem
          simp at helem
    · rw [if_pos hlen]
      constructor
      · intro h
        exact absurd h (by simp)
      · rintro ⟨h, _⟩
        exact absurd h hlen
  · intro hlen helem
    refine ⟨?_, ?_, ?_⟩
    · unfold assert_shape_match
      rw [if_neg (by simp [hlen]), helem]
      rfl
    · rw [String.append_assoc, String.append_assoc]
      exact strContains_infix _ _ _
    · rw [show ("Shape " ++ formatShape shape1 ++ " do not match " ++
          formatShape shape2) =
          ("Shape " ++ formatShape shape1 ++ " do not match ") ++
            (formatShape shape2 ++ "") from by
        rw [String.append_empty]]
      exact strContains_infix _ _ _
  · intro hlen
    unfold assert_shape_match
    rw [if_pos hlen]

/-- Witness for `assert_shape_match_spec`: the spec's two examples plus a
length mismatch. -/
theorem assert_shape_match_spec_witness :
    assert_shape_match [some 64, some 64, some 3] [none, none, some 3] =
      .ok ()
    ∧ (assert_shape_match [some 64, some 64, some 3]
          [some 64, some 64, some 4] =
        .error ("Shape " ++ formatShape [some 64, some 64, some 3] ++
          " do not match " ++ formatShape [some 64, some 64, some 4]) ∧
      strContains ("Shape " ++ formatShape [some 64, some 64, some 3] ++
          " do not match " ++ formatShape [some 64, some 64, some 4])
        (formatShape [some 64, some 64, some 3]) = true ∧
      strContains ("Shape " ++ formatShape [some 64, some 64, some 3] ++
          " do not match " ++ formatShape [some 64, some 64, some 4])
        (formatShape [some 64, some 64, some 4]) = true)
    ∧ assert_shape_match [some 64] [some 64, some 64] =
        .error ("Shapes should have same length: " ++ toString 1 ++ " - " ++
          toString 2) := by
  refine ⟨rfl, ?_, ?_⟩
  · exact (assert_shape_match_spec [some 64, some 64, some 3]
      [some 64, some 64, some 4]).2.1 rfl (by decide)
  · exact (assert_shape_match_spec [some 64]
      [some 64, some 64]).2.2 (by decide)
